import Mathlib

/-!
Verification of the ingestion / chunking / retrieval pipeline of the
srt-myashes-backend repository.

The definitions below are shallow embeddings of the Python source:

* data-pipeline/app/processors/chunk_processor.py : chunk_text, chunk_documents
* data-pipeline/app/indexers/vector_indexer.py    : generate_embeddings,
  the filter-expression builder of query_similar_documents
* backend/app/services/vector_store.py            : get_vector_store,
  query_vector_store
* data-pipeline/app/main.py                       : run_data_pipeline

Python strings are modelled as Lean String (a list of characters), so len,
slicing and concatenation agree with the Python semantics on the code-point
level.  The two regular-expression splits used by chunk_text are modelled
character by character, restricted to the ASCII whitespace class (the inputs
handled by this repository); the splitters are written with an explicit fuel
argument (the length of the input, which every recursive call strictly
decreases) so that they are structurally recursive and kernel-evaluable.
-/

set_option maxRecDepth 8000

namespace MyAshes

/-- Constant MAX_CHUNK_SIZE from chunk_processor.py. -/
def MAX_CHUNK_SIZE : Nat := 1024

/-- Constant MIN_CHUNK_SIZE from chunk_processor.py. -/
def MIN_CHUNK_SIZE : Nat := 50

/-- ASCII whitespace, as matched by the regex class backslash-s on the
    documents this repository processes. -/
def isPySpace (c : Char) : Bool :=
  c == ' ' || c == '\t' || c == '\n' || c == '\r' || c == '\x0b' || c == '\x0c'

/-- Position of the last newline character in a list, if any. -/
def lastNewlinePos : List Char → Option Nat
  | [] => none
  | c :: rest =>
    match lastNewlinePos rest with
    | some j => some (j + 1)
    | none => if c == '\n' then some 0 else none

/-- Given the characters following an initial newline, greedily match the
    regex tail of a paragraph separator (whitespace-star followed by a
    newline) and return the remaining characters after the full separator.
    The greedy match consumes up to the last newline inside the maximal
    whitespace run. -/
def sepRest (rest : List Char) : Option (List Char) :=
  match lastNewlinePos (rest.takeWhile isPySpace) with
  | none => none
  | some j => some (rest.drop (j + 1))

/-- Scanner for the paragraph split of chunk_text, modelling
    re.split of a newline, whitespace-star, newline pattern.  The fuel is an
    upper bound on the number of characters still to scan; every recursive
    call consumes at least one character, so fuel equal to the input length
    never runs out. -/
def parasAux : Nat → List Char → List Char → List (List Char)
  | _, [], acc => [acc.reverse]
  | 0, rest, acc => [acc.reverse ++ rest]
  | fuel + 1, c :: rest, acc =>
    if c == '\n' then
      match sepRest rest with
      | some rest' => acc.reverse :: parasAux fuel rest' []
      | none => parasAux fuel rest (c :: acc)
    else
      parasAux fuel rest (c :: acc)

/-- Paragraph split used by chunk_text (line 78 of chunk_processor.py). -/
def splitParagraphs (s : String) : List String :=
  (parasAux s.data.length s.data []).map fun l => String.mk l

/-- Sentence-terminal punctuation of the sentence-split regex. -/
def isSentPunct (c : Char) : Bool :=
  c == '.' || c == '!' || c == '?'

/-- Scanner for the sentence split of chunk_text, modelling re.split of
    one-or-more whitespace characters preceded (lookbehind) by sentence
    punctuation.  The boolean argument records whether the previous scanned
    character was sentence punctuation; the separator is the maximal
    whitespace run. -/
def sentAux : Nat → List Char → Bool → List Char → List (List Char)
  | _, [], _, acc => [acc.reverse]
  | 0, rest, _, acc => [acc.reverse ++ rest]
  | fuel + 1, c :: rest, prevPunct, acc =>
    if prevPunct && isPySpace c then
      acc.reverse :: sentAux fuel (rest.dropWhile isPySpace) false []
    else
      sentAux fuel rest (isSentPunct c) (c :: acc)

/-- Sentence split used by chunk_text (line 89 of chunk_processor.py). -/
def splitSentences (s : String) : List String :=
  (sentAux s.data.length s.data false []).map fun l => String.mk l

/-- Python string join with the separator of two newlines, as used for the
    text of an emitted chunk. -/
def joinSep : List String → String
  | [] => ""
  | [x] => x
  | x :: rest => x ++ "\n\n" ++ joinSep rest

/-- Sum of the lengths of a list of strings; chunk_text tracks this running
    total in the variable current_size. -/
def sumLens (l : List String) : Nat :=
  (l.map String.length).sum

/-- A chunk record as built by chunk_text.  The random uuid id field is not
    modelled (no claim mentions it); metadata is an opaque payload of type
    mu together with the chunk_index entry that chunk_text adds to it. -/
structure Chunk (μ : Type) where
  text : String
  metadata : μ
  chunkIndex : Nat
  source : String
  type : String
  server : Option String
deriving DecidableEq

/-- The mutable state of the chunk_text loop: the chunks emitted so far,
    the current buffer of paragraph-or-sentence pieces, its running size and
    the next chunk index.  The bufs field additionally records the buffer
    from which each emitted chunk was joined (a ghost field: it does not
    influence the chunks produced). -/
structure ChunkState (μ : Type) where
  chunks : List (Chunk μ)
  bufs : List (List String)
  buf : List String
  currSize : Nat
  idx : Nat

/-- Initial loop state of chunk_text (lines 80 to 82). -/
def chunkStateInit {μ : Type} : ChunkState μ :=
  ⟨[], [], [], 0, 0⟩

/-- Closing the current buffer into a chunk and seeding the next buffer
    with the last emitted piece (lines 95 to 110 and 117 to 132 of
    chunk_processor.py).  overlap_text is the last buffer element if the
    buffer is nonempty, otherwise the empty string; an empty overlap seeds
    an empty buffer. -/
def emitChunk {μ : Type} (m : μ) (src ty : String) (sv : Option String)
    (s : ChunkState μ) : ChunkState μ :=
  { chunks := s.chunks ++ [⟨joinSep s.buf, m, s.idx, src, ty, sv⟩]
    bufs := s.bufs ++ [s.buf]
    buf := if (s.buf.getLast?).getD "" = "" then [] else [(s.buf.getLast?).getD ""]
    currSize := ((s.buf.getLast?).getD "").length
    idx := s.idx + 1 }

/-- Appending a piece to the current buffer while adding its length to the
    running size (the final two statements of both loop bodies). -/
def appendPiece {μ : Type} (s : ChunkState μ) (piece : String) : ChunkState μ :=
  { s with buf := s.buf ++ [piece], currSize := s.currSize + piece.length }

/-- Processing one paragraph-or-sentence piece: emit the current buffer if
    adding the piece would exceed MAX_CHUNK_SIZE while the buffer is already
    larger than MIN_CHUNK_SIZE, then append the piece (the body of both the
    sentence loop and the paragraph branch of chunk_text). -/
def stepPiece {μ : Type} (m : μ) (src ty : String) (sv : Option String)
    (s : ChunkState μ) (piece : String) : ChunkState μ :=
  appendPiece
    (if MAX_CHUNK_SIZE < s.currSize + piece.length ∧ MIN_CHUNK_SIZE < s.currSize then
      emitChunk m src ty sv s
    else s) piece

/-- Processing one paragraph: a paragraph strictly larger than
    MAX_CHUNK_SIZE is split into sentences which are processed one by one;
    otherwise the paragraph itself is a single piece (lines 84 to 135). -/
def processPara {μ : Type} (m : μ) (src ty : String) (sv : Option String)
    (s : ChunkState μ) (para : String) : ChunkState μ :=
  if MAX_CHUNK_SIZE < para.length then
    (splitSentences para).foldl (stepPiece m src ty sv) s
  else
    stepPiece m src ty sv s para

/-- The chunk_text function of chunk_processor.py (lines 48 to 150).
    A text of length at most MAX_CHUNK_SIZE is returned unchanged as a
    single chunk with chunk_index 0; otherwise the text is split into
    paragraphs, accumulated with overlap, and any leftover buffer is emitted
    as the final chunk. -/
def chunkText {μ : Type} (text : String) (m : μ) (src ty : String)
    (sv : Option String) : List (Chunk μ) :=
  if text.length ≤ MAX_CHUNK_SIZE then
    [⟨text, m, 0, src, ty, sv⟩]
  else
    let s := (splitParagraphs text).foldl (processPara m src ty sv) chunkStateInit
    s.chunks ++ (if s.buf.isEmpty then [] else [⟨joinSep s.buf, m, s.idx, src, ty, sv⟩])

/-- The buffers (lists of paragraph-or-sentence pieces) from which the
    chunks of chunkText are joined; on the short-text fast path the single
    chunk corresponds to the one-piece buffer holding the whole text. -/
def chunkBufs {μ : Type} (text : String) (m : μ) (src ty : String)
    (sv : Option String) : List (List String) :=
  if text.length ≤ MAX_CHUNK_SIZE then
    [[text]]
  else
    let s := (splitParagraphs text).foldl (processPara m src ty sv) chunkStateInit
    s.bufs ++ (if s.buf.isEmpty then [] else [s.buf])

/-- Per-document behaviour of chunk_documents (lines 168 to 181 of
    chunk_processor.py): a document whose text is the empty string is
    skipped (Python truthiness of the string), every other document is
    passed to chunk_text. -/
def docChunks {μ : Type} (text : String) (m : μ) (src ty : String)
    (sv : Option String) : List (Chunk μ) :=
  if text = "" then [] else chunkText text m src ty sv

/-! ### Embedding generation (data-pipeline/app/indexers/vector_indexer.py) -/

/-- Python range start stop step for a positive step: the arithmetic
    progression from start, strictly below stop.  For step zero Python
    raises; this model returns the empty list (generate_embeddings is only
    called with a positive batch size). -/
def rangeStep (start stop step : Nat) : List Nat :=
  if _h : start < stop ∧ 0 < step then
    start :: rangeStep (start + step) stop step
  else
    []
termination_by stop - start
decreasing_by omega

/-- The generate_embeddings function (lines 39 to 77 of vector_indexer.py):
    the texts are sliced into consecutive batches of size batchSize via
    range over the list length, each batch is passed to the external model
    encode call (the parameter encode), and the per-batch outputs are
    concatenated in order (np.vstack for several batches, the single array
    for one batch, the empty list for none). -/
def generateEmbeddings {α : Type} (encode : List String → List α)
    (texts : List String) (batchSize : Nat) : List α :=
  ((rangeStep 0 texts.length batchSize).map
    fun i => encode ((texts.drop i).take batchSize)).flatten

/-! ### Vector store querying (backend/app/services/vector_store.py) -/

/-- Filters dictionary passed to the query functions: the type and server
    keys each either absent or mapped to a string (a Python None value is
    modelled as an absent key; both are equally falsy). -/
structure FiltersT where
  type : Option String
  server : Option String

/-- Python truthiness test of the expression testing that a key is present
    in the filters dictionary with a truthy (nonempty) string value. -/
def truthyStr : Option String → Bool
  | none => false
  | some s => !(s == "")

/-- Filter-expression construction of query_vector_store (lines 102 to 114
    of vector_store.py): double-quoted equality clauses joined with a
    conjunction; when no clause is produced the expression stays None.
    An absent or empty filters dictionary and one whose type and server
    values are falsy all yield None. -/
def buildFilterExpr (filters : Option FiltersT) : Option String :=
  match filters with
  | none => none
  | some f =>
    let parts :=
      (if truthyStr f.type then ["type == \"" ++ f.type.getD "" ++ "\""] else []) ++
      (if truthyStr f.server then ["server == \"" ++ f.server.getD "" ++ "\""] else [])
    if parts.isEmpty then none else some (" && ".intercalate parts)

/-- Filter-expression construction of query_similar_documents (lines 276 to
    288 of vector_indexer.py); identical logic with single-quoted values. -/
def buildFilterExprIdx (filters : Option FiltersT) : Option String :=
  match filters with
  | none => none
  | some f =>
    let parts :=
      (if truthyStr f.type then ["type == " ++ "'" ++ f.type.getD "" ++ "'"] else []) ++
      (if truthyStr f.server then ["server == " ++ "'" ++ f.server.getD "" ++ "'"] else [])
    if parts.isEmpty then none else some (" && ".intercalate parts)

/-- Opaque handle for a loaded Milvus collection. -/
structure MilvusCollection where
  mk' ::

/-- A raw search hit as consumed by the result-formatting loop of
    query_vector_store: the requested output fields of the entity plus the
    similarity score. -/
structure MilvusHit where
  id : String
  text : String
  metadata : String
  source : String
  type : String
  server : String
  score : Float

/-- The formatted result dictionary built for each hit (lines 131 to 142 of
    vector_store.py). -/
structure RetrievedDoc where
  id : String
  text : String
  metadata : String
  source : String
  type : String
  server : String
  score : Float

/-- Formatting of one hit into the caller-facing shape. -/
def formatHit (h : MilvusHit) : RetrievedDoc :=
  ⟨h.id, h.text, h.metadata, h.source, h.type, h.server, h.score⟩

/-- The get_vector_store function (lines 34 to 61 of vector_store.py) on a
    fresh process: a failed connection attempt is logged and re-raised; on
    a successful connection the collection handle is returned when the
    collection exists and None when it has never been created. -/
def getVectorStore (conn : Except String Unit) (hasCollection : Bool) :
    Except String (Option MilvusCollection) :=
  match conn with
  | .error e => .error e
  | .ok _ => .ok (if hasCollection then some ⟨⟩ else none)

/-- The query_vector_store function (lines 63 to 144 of vector_store.py),
    parametrised over the outcomes of its three effectful dependencies:
    the store lookup, the query embedding, and the backend search call
    (which receives the query vector, the limit and the filter expression).
    Each try-except block that returns an empty list on failure is modelled
    by mapping the error case to the empty list; the function has no error
    channel because the Python code never lets an exception escape. -/
def queryVectorStore (store : Except String (Option MilvusCollection))
    (embedQuery : Except String (List Float))
    (searchFn : List Float → Nat → Option String → Except String (List MilvusHit))
    (lim : Nat) (filters : Option FiltersT) : List RetrievedDoc :=
  match store with
  | .error _ => []
  | .ok none => []
  | .ok (some _) =>
    match embedQuery with
    | .error _ => []
    | .ok qv =>
      match searchFn qv lim (buildFilterExpr filters) with
      | .error _ => []
      | .ok hits => hits.map formatHit

/-! ### Pipeline orchestration (data-pipeline/app/main.py) -/

/-- A raw document as consumed by the chunk_documents loop. -/
structure RawDoc (μ : Type) where
  text : String
  metadata : μ
  source : String
  type : String
  server : Option String

/-- The asyncio.gather call of run_data_pipeline without return_exceptions:
    if every task succeeds the list of results is returned; if any task
    raises, that exception propagates (the temporal order in which failures
    surface is modelled as list order). -/
def gatherResults {ε α : Type} : List (Except ε α) → Except ε (List α)
  | [] => .ok []
  | r :: rs =>
    match r with
    | .error e => .error e
    | .ok v =>
      match gatherResults rs with
      | .error e => .error e
      | .ok vs => .ok (v :: vs)

/-- The run_data_pipeline function (lines 23 to 75 of main.py),
    parametrised over the outcomes of the scraper tasks, each producing the
    raw documents it saved.  When the gather raises, the except block logs
    and re-raises, so chunking and indexing never run; otherwise every
    scraped document is chunked (chunk_documents) and the resulting chunks
    are indexed.  The ok value is the list of chunks indexed by the run. -/
def runDataPipeline {μ : Type}
    (scrapeResults : List (Except String (List (RawDoc μ)))) :
    Except String (List (Chunk μ)) :=
  match gatherResults scrapeResults with
  | .error e => .error e
  | .ok docLists =>
    .ok ((docLists.flatten).flatMap fun d => docChunks d.text d.metadata d.source d.type d.server)

/-! ### Derived notions used in the statements and proofs -/

/-- Overlap relation between the piece buffers of consecutive chunks: every
    nonempty last piece of the earlier buffer reappears as the first piece
    of the later buffer (an empty last piece seeds no overlap). -/
def overlapRel (p q : List String) : Prop :=
  ∀ o ∈ p.getLast?, o = "" ∨ q.head? = some o

/-- Invariant of the chunk_text accumulation loop: the running size is the
    total length of the buffered pieces, the emitted chunk indices are the
    contiguous range below the next index, every emitted chunk is strictly
    larger than MIN_CHUNK_SIZE, the emitted texts are the joins of the
    recorded buffers, and consecutive buffers (including the current one)
    satisfy the overlap relation. -/
def ChunkInv {μ : Type} (s : ChunkState μ) : Prop :=
  s.currSize = sumLens s.buf ∧
  s.chunks.map (fun c => c.chunkIndex) = List.range s.idx ∧
  (∀ c ∈ s.chunks, MIN_CHUNK_SIZE < c.text.length) ∧
  s.chunks.map (fun c => c.text) = s.bufs.map joinSep ∧
  List.Chain' overlapRel (s.bufs ++ [s.buf])

/-! ### Concrete inputs used by counterexamples and witnesses -/

/-- A document of length 1088: a 50-character paragraph, a 1024-character
    paragraph and a 10-character paragraph.  The first two paragraphs are
    merged into the first emitted chunk (the buffer is still at the minimum
    size boundary when the large paragraph arrives), whose text of length
    50 + 2 + 1024 = 1076 exceeds MAX_CHUNK_SIZE. -/
def c1Text : String :=
  String.mk (List.replicate 50 'a') ++ "\n\n" ++
  String.mk (List.replicate 1024 'b') ++ "\n\n" ++
  String.mk (List.replicate 10 'c')

/-- The text of the first chunk that chunk_text emits on c1Text. -/
def c1Chunk0 : Chunk Nat :=
  ⟨String.mk (List.replicate 50 'a') ++ "\n\n" ++ String.mk (List.replicate 1024 'b'),
   0, 0, "s", "t", none⟩

/-- A document of length 1127 whose first paragraph (length 1025) splits
    into the sentences s1, s2 and the empty string (the paragraph ends in a
    period followed by a space), followed by a 100-character paragraph.
    The first emitted chunk is joined from the buffer holding s1, s2 and
    the empty trailing sentence, so its overlap piece is empty and the
    second chunk starts directly with the final paragraph. -/
def c2Text : String :=
  String.mk (List.replicate 599 'a') ++ "." ++ " " ++
  String.mk (List.replicate 422 'b') ++ "." ++ " " ++ "\n\n" ++
  String.mk (List.replicate 100 'q')

/-- The final paragraph of c2Text. -/
def c2Q : String := String.mk (List.replicate 100 'q')

/-! ### Helper lemmas about the chunking loop -/

theorem sumLens_append (l : List String) (x : String) :
    sumLens (l ++ [x]) = sumLens l + x.length := by
  simp [sumLens]

theorem sumLens_le_length_joinSep : ∀ l : List String, sumLens l ≤ (joinSep l).length
  | [] => by simp [joinSep, sumLens]
  | [x] => by simp [joinSep, sumLens]
  | x :: y :: t => by
    have ih := sumLens_le_length_joinSep (y :: t)
    have h2 : ("\n\n" : String).length = 2 := rfl
    simp only [joinSep, sumLens, List.map_cons, List.sum_cons] at ih ⊢
    rw [String.length_append, String.length_append, h2]
    omega

theorem chunkInv_emit {μ : Type} (m : μ) (src ty : String) (sv : Option String)
    {s : ChunkState μ} (hinv : ChunkInv s) (hsz : MIN_CHUNK_SIZE < s.currSize) :
    ChunkInv (emitChunk m src ty sv s) := by
  obtain ⟨hsize, hidx, hlen, htext, hchain⟩ := hinv
  refine ⟨?_, ?_, ?_, ?_, ?_⟩
  · by_cases h : (s.buf.getLast?).getD "" = ""
    · simp [emitChunk, h, sumLens]
    · simp [emitChunk, h, sumLens]
  · simp [emitChunk, hidx, List.range_succ]
  · intro c hc
    simp only [emitChunk, List.mem_append, List.mem_singleton] at hc
    rcases hc with hc | hc
    · exact hlen c hc
    · subst hc
      calc MIN_CHUNK_SIZE < s.currSize := hsz
        _ = sumLens s.buf := hsize
        _ ≤ (joinSep s.buf).length := sumLens_le_length_joinSep s.buf
  · simp [emitChunk, htext]
  · show List.Chain' overlapRel ((s.bufs ++ [s.buf]) ++ [_])
    rw [List.chain'_append]
    refine ⟨hchain, List.chain'_singleton _, ?_⟩
    intro p hp q hq
    simp only [List.getLast?_concat, Option.mem_def, Option.some.injEq] at hp
    simp only [List.head?_cons, Option.mem_def, Option.some.injEq] at hq
    subst hp
    subst hq
    intro o ho
    simp only [Option.mem_def] at ho
    by_cases h : o = ""
    · exact Or.inl h
    · right
      simp only [emitChunk]
      rw [ho]
      simp only [Option.getD_some]
      rw [if_neg h]
      rfl

theorem chunkInv_appendPiece {μ : Type} {s : ChunkState μ} (x : String)
    (hinv : ChunkInv s) : ChunkInv (appendPiece s x) := by
  obtain ⟨hsize, hidx, hlen, htext, hchain⟩ := hinv
  refine ⟨?_, hidx, hlen, htext, ?_⟩
  · simp [appendPiece, sumLens_append, hsize]
  · show List.Chain' overlapRel (s.bufs ++ [s.buf ++ [x]])
    rw [List.chain'_append] at hchain ⊢
    obtain ⟨h1, _, h3⟩ := hchain
    refine ⟨h1, List.chain'_singleton _, ?_⟩
    intro p hp q hq
    simp only [List.head?_cons, Option.mem_def, Option.some.injEq] at hq
    subst hq
    have hrel := h3 p hp s.buf (by simp)
    intro o ho
    rcases hrel o ho with h | h
    · exact Or.inl h
    · right
      have hne : s.buf ≠ [] := by
        intro hnil
        rw [hnil] at h
        simp at h
      rw [List.head?_append_of_ne_nil _ hne]
      exact h

theorem chunkInv_step {μ : Type} (m : μ) (src ty : String) (sv : Option String)
    {s : ChunkState μ} (x : String) (hinv : ChunkInv s) :
    ChunkInv (stepPiece m src ty sv s x) := by
  unfold stepPiece
  split
  · next h => exact chunkInv_appendPiece x (chunkInv_emit m src ty sv hinv h.2)
  · exact chunkInv_appendPiece x hinv

theorem chunkInv_foldl {μ : Type} (m : μ) (src ty : String) (sv : Option String) :
    ∀ (pieces : List String) {s : ChunkState μ}, ChunkInv s →
      ChunkInv (pieces.foldl (stepPiece m src ty sv) s)
  | [], _, h => h
  | p :: ps, _, h => chunkInv_foldl m src ty sv ps (chunkInv_step m src ty sv p h)

theorem chunkInv_processPara {μ : Type} (m : μ) (src ty : String) (sv : Option String)
    {s : ChunkState μ} (para : String) (hinv : ChunkInv s) :
    ChunkInv (processPara m src ty sv s para) := by
  unfold processPara
  split
  · exact chunkInv_foldl m src ty sv _ hinv
  · exact chunkInv_step m src ty sv para hinv

theorem chunkInv_foldl_paras {μ : Type} (m : μ) (src ty : String) (sv : Option String) :
    ∀ (paras : List String) {s : ChunkState μ}, ChunkInv s →
      ChunkInv (paras.foldl (processPara m src ty sv) s)
  | [], _, h => h
  | p :: ps, _, h => chunkInv_foldl_paras m src ty sv ps (chunkInv_processPara m src ty sv p h)

theorem chunkInv_init {μ : Type} : ChunkInv (chunkStateInit (μ := μ)) := by
  refine ⟨rfl, rfl, ?_, rfl, ?_⟩
  · intro c hc
    simp [chunkStateInit] at hc
  · simp only [chunkStateInit, List.nil_append]
    exact List.chain'_singleton _

/-! ### Claim theorems about the Document Chunker -/

/-- Claim C3: for every input text and arguments, the chunk_index values of
    the chunks returned by chunk_text form the contiguous ascending sequence
    0, 1, ..., n-1 in emission order, where n is the number of chunks. -/
theorem chunk_index_contiguous {μ : Type} (text : String) (m : μ) (src ty : String)
    (sv : Option String) :
    (chunkText text m src ty sv).map (fun c => c.chunkIndex) =
      List.range (chunkText text m src ty sv).length := by
  simp only [chunkText]
  split
  · simp [List.range_succ]
  · have hinv := chunkInv_foldl_paras m src ty sv (splitParagraphs text) chunkInv_init
    set s := (splitParagraphs text).foldl (processPara m src ty sv) chunkStateInit with hs
    obtain ⟨-, hidx, -, -, -⟩ := hinv
    have hlen : s.chunks.length = s.idx := by
      have := congrArg List.length hidx
      simpa using this
    split
    · simpa [hlen] using hidx
    · simp [hidx, hlen, List.range_succ]

/-- Claim C1 (amended): every chunk emitted by chunk_text except possibly
    the last has text length at least MIN_CHUNK_SIZE; the claimed upper
    bound MAX_CHUNK_SIZE does not hold in general (see the counterexample),
    because the join separators and any pieces absorbed while the buffer is
    still at most MIN_CHUNK_SIZE are not counted against the limit. -/
theorem chunk_min_size_except_last {μ : Type} (text : String) (m : μ) (src ty : String)
    (sv : Option String) (i : Nat) (c : Chunk μ)
    (hc : (chunkText text m src ty sv)[i]? = some c)
    (hi : i + 1 < (chunkText text m src ty sv).length) :
    MIN_CHUNK_SIZE ≤ c.text.length := by
  by_cases ht : text.length ≤ MAX_CHUNK_SIZE
  · simp only [chunkText, if_pos ht] at hi
    simp only [List.length_singleton] at hi
    exact absurd hi (by omega)
  · simp only [chunkText, if_neg ht] at hc hi
    have hinv := chunkInv_foldl_paras m src ty sv (splitParagraphs text) chunkInv_init
    set s := (splitParagraphs text).foldl (processPara m src ty sv) chunkStateInit with hs
    obtain ⟨-, -, hlen50, -, -⟩ := hinv
    have htail : (if s.buf.isEmpty then ([] : List (Chunk μ))
        else [⟨joinSep s.buf, m, s.idx, src, ty, sv⟩]).length ≤ 1 := by
      split <;> simp
    rw [List.length_append] at hi
    have hilt : i < s.chunks.length := by omega
    rw [List.getElem?_append, if_pos hilt] at hc
    have hmem : c ∈ s.chunks := by
      obtain ⟨h, rfl⟩ := List.getElem?_eq_some.1 hc
      exact List.getElem_mem h
    exact Nat.le_of_lt (hlen50 c hmem)

/-- Counterexample to claim C1 as stated: the document c1Text has length
    1088 which exceeds MAX_CHUNK_SIZE, chunk_text splits it into two
    chunks, and the first (hence not the last) chunk has text length 1076,
    strictly greater than MAX_CHUNK_SIZE = 1024, so the claimed upper bound
    on non-final chunks is violated. -/
theorem chunk_size_counterexample :
    MAX_CHUNK_SIZE < c1Text.length ∧
    (chunkText c1Text (0 : Nat) "s" "t" none).map (fun c => c.text.length) = [1076, 1036] := by
  constructor
  · decide
  · decide

/-- Witness for the amended claim C1 at the concrete document c1Text:
    chunk 0 of 2 is not the last chunk, and its length is at least
    MIN_CHUNK_SIZE. -/
theorem chunk_min_size_except_last_witness :
    (chunkText c1Text (0 : Nat) "s" "t" none)[0]? = some c1Chunk0 ∧
    0 + 1 < (chunkText c1Text (0 : Nat) "s" "t" none).length ∧
    MIN_CHUNK_SIZE ≤ c1Chunk0.text.length := by
  have h1 : (chunkText c1Text (0 : Nat) "s" "t" none)[0]? = some c1Chunk0 := by decide
  have h2 : 0 + 1 < (chunkText c1Text (0 : Nat) "s" "t" none).length := by decide
  exact ⟨h1, h2, chunk_min_size_except_last c1Text 0 "s" "t" none 0 c1Chunk0 h1 h2⟩

/-- Claim C2 (amended): the texts of the chunks produced by chunk_text are
    the two-newline joins of the corresponding piece buffers, and
    consecutive buffers satisfy the overlap relation: whenever the last
    paragraph-or-sentence piece of a chunk's buffer is nonempty it is seeded
    verbatim as the first piece of the next chunk's buffer.  When the last
    piece is the empty string no overlap is seeded (see the counterexample),
    and inside an oversized paragraph the overlapping piece is a sentence
    rather than a paragraph. -/
theorem chunk_overlap_piece_chain {μ : Type} (text : String) (m : μ) (src ty : String)
    (sv : Option String) :
    (chunkText text m src ty sv).map (fun c => c.text) =
      (chunkBufs text m src ty sv).map joinSep ∧
    List.Chain' overlapRel (chunkBufs text m src ty sv) := by
  by_cases ht : text.length ≤ MAX_CHUNK_SIZE
  · constructor
    · simp [chunkText, chunkBufs, if_pos ht, joinSep]
    · simp only [chunkBufs, if_pos ht]
      exact List.chain'_singleton _
  · simp only [chunkText, chunkBufs, if_neg ht]
    have hinv := chunkInv_foldl_paras m src ty sv (splitParagraphs text) chunkInv_init
    set s := (splitParagraphs text).foldl (processPara m src ty sv) chunkStateInit with hs
    obtain ⟨-, -, -, htext, hchain⟩ := hinv
    by_cases hb : s.buf.isEmpty
    · rw [if_pos hb, if_pos hb]
      constructor
      · simpa using htext
      · simpa using (List.chain'_append.1 hchain).1
    · rw [if_neg hb, if_neg hb]
      constructor
      · simp [htext]
      · exact hchain

/-- Counterexample to claim C2 as stated: chunk_text splits c2Text into two
    chunks; the last paragraph of the first chunk's text is the empty
    string (the oversized first paragraph ends with a period and a space,
    so its sentence split has an empty trailing sentence, which becomes the
    overlap candidate), while the first paragraph of the second chunk is
    the 100-character final paragraph — the last paragraph of chunk 0 does
    not reappear at the start of chunk 1. -/
theorem chunk_overlap_counterexample :
    (chunkText c2Text (0 : Nat) "s" "t" none).length = 2 ∧
    (splitParagraphs ((chunkText c2Text (0 : Nat) "s" "t" none).getD 0
      ⟨"", 0, 0, "", "", none⟩).text).getLast? = some "" ∧
    (splitParagraphs ((chunkText c2Text (0 : Nat) "s" "t" none).getD 1
      ⟨"", 0, 0, "", "", none⟩).text).head? = some c2Q ∧
    c2Q ≠ "" := by
  refine ⟨by decide, by decide, by decide, by decide⟩

/-- Claim C9: a nonempty document no longer than MAX_CHUNK_SIZE is returned
    by chunk_text as exactly one chunk carrying the original text unchanged
    and chunk_index 0 (the fast path that bypasses the split logic). -/
theorem short_document_fast_path {μ : Type} (text : String) (m : μ) (src ty : String)
    (sv : Option String) (_hpos : 0 < text.length) (hle : text.length ≤ MAX_CHUNK_SIZE) :
    chunkText text m src ty sv = [⟨text, m, 0, src, ty, sv⟩] := by
  simp [chunkText, if_pos hle]

/-- Witness for claim C9 at a concrete five-character document. -/
theorem short_document_fast_path_witness :
    0 < ("hello" : String).length ∧ ("hello" : String).length ≤ MAX_CHUNK_SIZE ∧
    chunkText "hello" (0 : Nat) "s" "t" none = [⟨"hello", 0, 0, "s", "t", none⟩] :=
  ⟨by decide, by decide, short_document_fast_path "hello" 0 "s" "t" none (by decide) (by decide)⟩

/-- Counterexample to claim C8 as stated: a whitespace-only but nonempty
    document is truthy in Python, so chunk_documents does not skip it and
    chunk_text returns one chunk holding the whitespace text — not zero
    chunks. -/
theorem whitespace_document_counterexample :
    docChunks " " (0 : Nat) "s" "t" none ≠ [] ∧
    (docChunks " " (0 : Nat) "s" "t" none).map (fun c => c.text) = [" "] := by
  constructor
  · decide
  · decide

/-- Claim C8 (amended): a document whose text is the empty string yields
    zero chunks (chunk_documents skips it before calling chunk_text), but a
    nonempty whitespace-only document is not skipped: for any nonempty text
    of length at most MAX_CHUNK_SIZE, including whitespace-only text, one
    chunk holding the text itself is produced and indexed. -/
theorem empty_document_zero_chunks {μ : Type} (text : String) (m : μ) (src ty : String)
    (sv : Option String) :
    docChunks "" m src ty sv = [] ∧
    (text ≠ "" → text.length ≤ MAX_CHUNK_SIZE →
      docChunks text m src ty sv = [⟨text, m, 0, src, ty, sv⟩]) := by
  constructor
  · rfl
  · intro hne hle
    rw [docChunks, if_neg hne]
    simp [chunkText, if_pos hle]

/-- Witness for the amended claim C8 at the empty document and at a
    one-character whitespace document. -/
theorem empty_document_zero_chunks_witness :
    docChunks "" (0 : Nat) "s" "t" none = [] ∧
    (" " : String) ≠ "" ∧ (" " : String).length ≤ MAX_CHUNK_SIZE ∧
    docChunks " " (0 : Nat) "s" "t" none = [⟨" ", 0, 0, "s", "t", none⟩] := by
  have h := empty_document_zero_chunks " " (0 : Nat) "s" "t" none
  exact ⟨h.1, by decide, by decide, h.2 (by decide) (by decide)⟩

/-! ### Claim theorems about the Embedding Generator -/

theorem rangeStep_eq (start stop step : Nat) :
    rangeStep start stop step =
      if start < stop ∧ 0 < step then start :: rangeStep (start + step) stop step else [] := by
  rw [rangeStep]
  rfl

theorem rangeStep_shift (k step n : Nat) :
    ∀ stop start, stop - start ≤ n →
      rangeStep (start + k) (stop + k) step = (rangeStep start stop step).map (fun i => i + k) := by
  induction n with
  | zero =>
    intro stop start h
    rw [rangeStep_eq (start + k) (stop + k) step, rangeStep_eq start stop step]
    rw [if_neg (by omega), if_neg (by omega)]
    rfl
  | succ n ih =>
    intro stop start h
    rw [rangeStep_eq (start + k), rangeStep_eq start]
    by_cases hc : start < stop ∧ 0 < step
    · rw [if_pos (by omega), if_pos hc]
      simp only [List.map_cons]
      congr 1
      rw [show start + k + step = start + step + k from by omega]
      exact ih stop (start + step) (by omega)
    · rw [if_neg (by omega), if_neg hc]
      rfl

theorem flatten_slices {α : Type} (bs : Nat) (hbs : 0 < bs) :
    ∀ (n : Nat) (l : List α), l.length ≤ n →
      ((rangeStep 0 l.length bs).map (fun i => (l.drop i).take bs)).flatten = l := by
  intro n
  induction n with
  | zero =>
    intro l h
    have hl : l = [] := List.length_eq_zero.1 (by omega)
    subst hl
    rw [rangeStep_eq, if_neg (by omega)]
    rfl
  | succ n ih =>
    intro l h
    by_cases h0 : l.length = 0
    · have hl : l = [] := List.length_eq_zero.1 h0
      subst hl
      rw [rangeStep_eq, if_neg (by omega)]
      rfl
    · rw [rangeStep_eq, if_pos ⟨by omega, hbs⟩]
      simp only [List.map_cons, List.flatten_cons, List.drop_zero, Nat.zero_add]
      have hdl : (l.drop bs).length = l.length - bs := by
        simp [List.length_drop]
      by_cases hble : l.length ≤ bs
      · rw [rangeStep_eq, if_neg (by omega)]
        simp [List.take_of_length_le hble]
      · have hshift := rangeStep_shift bs bs n (l.length - bs) 0 (by omega)
        rw [Nat.zero_add, show l.length - bs + bs = l.length from by omega] at hshift
        rw [hshift, List.map_map]
        have hfun : ((fun i => (l.drop i).take bs) ∘ fun i => i + bs) =
            (fun i => ((l.drop bs).drop i).take bs) := by
          funext i
          simp [Function.comp, List.drop_drop, Nat.add_comm]
        rw [hfun, ← hdl, ih (l.drop bs) (by omega)]
        exact List.take_append_drop bs l

/-- Claim C7: generate_embeddings with any positive batch size returns
    exactly one embedding per input text, concatenated across batches in
    input order (the external model encode call is assumed to embed each
    batch pointwise, one vector per batch element, as its contract states);
    in particular a two-element input yields exactly its two embeddings and
    the empty input yields the empty list. -/
theorem generate_embeddings_one_per_text {α : Type} (encodeOne : String → α)
    (texts : List String) (bs : Nat) (hbs : 0 < bs) :
    generateEmbeddings (fun batch => batch.map encodeOne) texts bs = texts.map encodeOne := by
  unfold generateEmbeddings
  have h : ((rangeStep 0 texts.length bs).map
      (fun i => ((texts.drop i).take bs).map encodeOne)).flatten =
      (((rangeStep 0 texts.length bs).map (fun i => (texts.drop i).take bs)).flatten).map
        encodeOne := by
    rw [List.map_flatten, List.map_map]
    rfl
  rw [h, flatten_slices bs hbs texts.length texts (Nat.le_refl _)]

/-- Witness for claim C7: embedding the two-element list of texts with the
    default batch size 32 yields exactly the two per-text values in input
    order. -/
theorem generate_embeddings_one_per_text_witness :
    0 < 32 ∧
    generateEmbeddings (fun batch => batch.map String.length) ["a", "bb"] 32 = [1, 2] := by
  refine ⟨by decide, ?_⟩
  rw [generate_embeddings_one_per_text String.length ["a", "bb"] 32 (by decide)]
  rfl

/-! ### Claim theorems about the Ingestion Orchestrator -/

theorem gather_error {ε α : Type} (e : ε) :
    ∀ (pre post : List (Except ε α)), (∀ r ∈ pre, ∃ v, r = Except.ok v) →
      gatherResults (pre ++ Except.error e :: post) = Except.error e
  | [], _, _ => rfl
  | r :: rs, post, hpre => by
    obtain ⟨v, rfl⟩ := hpre r (by simp)
    have ih := gather_error e rs post (fun x hx => hpre x (by simp [hx]))
    show (match gatherResults (rs ++ Except.error e :: post) with
          | Except.error e => Except.error e
          | Except.ok vs => Except.ok (v :: vs)) = Except.error e
    rw [ih]

/-- Claim C4 (amended): when one source category's scraper task raises
    while every earlier task succeeds, run_data_pipeline does not complete:
    asyncio.gather propagates the exception, the except block logs and
    re-raises it, and no document of any category is chunked or indexed in
    that run.  Failure isolation exists only inside individual scrapers
    (the codex scraper catches per-category errors itself), not at the
    orchestrator level. -/
theorem pipeline_scraper_failure_aborts {μ : Type}
    (pre post : List (Except String (List (RawDoc μ)))) (e : String)
    (hpre : ∀ r ∈ pre, ∃ v, r = Except.ok v) :
    runDataPipeline (pre ++ Except.error e :: post) = Except.error e := by
  unfold runDataPipeline
  rw [gather_error e pre post hpre]

/-- Counterexample to claim C4 as stated: with one succeeding scraper
    producing a document and one scraper raising, the pipeline run raises
    instead of completing, so the succeeding category's document is not
    chunked or indexed in that run. -/
theorem pipeline_isolation_counterexample :
    runDataPipeline [Except.ok [(⟨"hello", 0, "wiki", "general", none⟩ : RawDoc Nat)],
      Except.error "provider failure"] = Except.error "provider failure" := rfl

/-- Witness for the amended claim C4: one successful scraper result
    followed by a raising one makes the whole run fail. -/
theorem pipeline_scraper_failure_aborts_witness :
    (∀ r ∈ ([Except.ok [⟨"hello", 0, "wiki", "general", none⟩]] :
        List (Except String (List (RawDoc Nat)))), ∃ v, r = Except.ok v) ∧
    runDataPipeline (([Except.ok [⟨"hello", 0, "wiki", "general", none⟩]] :
        List (Except String (List (RawDoc Nat)))) ++ Except.error "boom" :: []) =
      Except.error "boom" := by
  have hpre : ∀ r ∈ ([Except.ok [⟨"hello", 0, "wiki", "general", none⟩]] :
      List (Except String (List (RawDoc Nat)))), ∃ v, r = Except.ok v := by
    intro r hr
    simp only [List.mem_singleton] at hr
    exact ⟨_, hr⟩
  exact ⟨hpre, pipeline_scraper_failure_aborts _ _ "boom" hpre⟩

/-! ### Claim theorems about the Retrieval Query Engine -/

/-- Claim C5 (amended): query_vector_store never lets an error reach the
    caller.  An absent collection, a failed store access, a failed query
    embedding, a backend search failure and an empty search result all
    produce the empty list; in particular a backend connectivity failure
    during search is caught and converted into an empty result rather than
    propagating as a typed error. -/
theorem retrieval_never_raises
    (store : Except String (Option MilvusCollection))
    (emb : Except String (List Float))
    (searchFn : List Float → Nat → Option String → Except String (List MilvusHit))
    (lim : Nat) (filters : Option FiltersT) (msg : String) :
    queryVectorStore (.ok none) emb searchFn lim filters = [] ∧
    queryVectorStore (.error msg) emb searchFn lim filters = [] ∧
    queryVectorStore store (.error msg) searchFn lim filters = [] ∧
    queryVectorStore store emb (fun _ _ _ => .error msg) lim filters = [] ∧
    queryVectorStore store emb (fun _ _ _ => .ok []) lim filters = [] := by
  refine ⟨rfl, rfl, ?_, ?_, ?_⟩
  · rcases store with _ | o
    · rfl
    · rcases o with _ | c
      · rfl
      · rfl
  · rcases store with _ | o
    · rfl
    · rcases o with _ | c
      · rfl
      · rcases emb with _ | v
        · rfl
        · rfl
  · rcases store with _ | o
    · rfl
    · rcases o with _ | c
      · rfl
      · rcases emb with _ | v
        · rfl
        · rfl

/-- Counterexample to claim C5 as stated: when the backend search call
    fails with a connectivity error, query_vector_store returns the empty
    list — indistinguishable from a genuinely empty search — instead of
    propagating a typed error to the caller. -/
theorem retrieval_error_propagation_counterexample :
    queryVectorStore (.ok (some ⟨⟩)) (.ok [1.0])
      (fun _ _ _ => .error "vector backend unreachable") 5 none = [] ∧
    queryVectorStore (.ok (some ⟨⟩)) (.ok [1.0])
      (fun _ _ _ => .error "vector backend unreachable") 5 none =
      queryVectorStore (.ok (some ⟨⟩)) (.ok [1.0])
        (fun _ _ _ => .ok []) 5 none :=
  ⟨rfl, rfl⟩

/-- Claim C6: querying when the collection has never been created (the
    connection succeeds but has_collection is false, so get_vector_store
    returns None) yields the empty list for every embedding outcome, search
    backend, limit and filters — no error and no exception. -/
theorem retrieval_empty_collection
    (emb : Except String (List Float))
    (searchFn : List Float → Nat → Option String → Except String (List MilvusHit))
    (lim : Nat) (filters : Option FiltersT) :
    queryVectorStore (getVectorStore (.ok ()) false) emb searchFn lim filters = [] := rfl

/-- Claim C10: a filters dictionary whose type and server values are falsy
    (absent keys or empty strings) produces no filter expression, in both
    query_vector_store and query_similar_documents, and therefore exactly
    the same search as passing no filters at all; consequently one cannot
    filter retrieval on an empty-string type or server value. -/
theorem falsy_filters_same_search
    (store : Except String (Option MilvusCollection))
    (emb : Except String (List Float))
    (searchFn : List Float → Nat → Option String → Except String (List MilvusHit))
    (lim : Nat) (f : FiltersT)
    (hty : truthyStr f.type = false) (hsv : truthyStr f.server = false) :
    buildFilterExpr (some f) = buildFilterExpr none ∧
    buildFilterExprIdx (some f) = buildFilterExprIdx none ∧
    queryVectorStore store emb searchFn lim (some f) =
      queryVectorStore store emb searchFn lim none := by
  have h1 : buildFilterExpr (some f) = buildFilterExpr none := by
    simp [buildFilterExpr, hty, hsv]
  have h2 : buildFilterExprIdx (some f) = buildFilterExprIdx none := by
    simp [buildFilterExprIdx, hty, hsv]
  refine ⟨h1, h2, ?_⟩
  unfold queryVectorStore
  rw [h1]

/-- Witness for claim C10 at the concrete filters dictionary carrying an
    empty type value and no server key. -/
theorem falsy_filters_same_search_witness :
    truthyStr (FiltersT.mk (some "") none).type = false ∧
    truthyStr (FiltersT.mk (some "") none).server = false ∧
    buildFilterExpr (some ⟨some "", none⟩) = buildFilterExpr none ∧
    buildFilterExprIdx (some ⟨some "", none⟩) = buildFilterExprIdx none ∧
    queryVectorStore (.ok none) (.ok []) (fun _ _ _ => .ok []) 5 (some ⟨some "", none⟩) =
      queryVectorStore (.ok none) (.ok []) (fun _ _ _ => .ok []) 5 none := by
  have h := falsy_filters_same_search (.ok none) (.ok []) (fun _ _ _ => .ok []) 5
    ⟨some "", none⟩ (by decide) (by decide)
  exact ⟨by decide, by decide, h.1, h.2.1, h.2.2⟩

end MyAshes
